import Mathlib

/-!
# A shallow embedding of the diffdelta-python client

This file embeds the core of the `diffdelta` Python package in Lean 4:
`cursor.py` (the `CursorStore`), `models.py` (`Head`, `Feed`, `FeedItem`,
`SourceInfo` and their `from_raw` constructors) and `client.py`
(`_poll_feed`, `poll`, `poll_source`, `head`, `fetch_feed`,
`_get_source_tags` and the body of one `watch` iteration).

Modelling conventions:
* A JSON document is represented by a structure whose optional fields are
  `Option`-typed; `data.get(key, default)` becomes `Option.getD`.
* Python `dict` values are association lists with Python-dict update
  semantics (`dictSet` updates in place, `dictGet` finds the entry).
* The network is an oracle (`Env`) recording the outcome each URL fetch
  would have; fallible fetches are `Except FetchError`.
* The cursor file is `FS := Option FileVal`: missing, a JSON object,
  valid JSON that is not an object, or unreadable/corrupt content.
  Whether a write succeeds is the oracle flag `Env.canWrite`.
* Poll outcomes carry counters of full-feed and sources fetches actually
  performed, so call-count properties can be stated.
-/

/-- Python-dict lookup on an association list (`d.get(k)`). -/
def dictGet {α : Type} (t : List (String × α)) (k : String) : Option α :=
  match t.find? (fun p => p.1 == k) with
  | some p => some p.2
  | none => none

/-- Python-dict assignment `d[k] = v`: update in place if the key is
present (keeping insertion order), otherwise append at the end. -/
def dictSet {α : Type} : List (String × α) → String → α → List (String × α)
  | [], k, v => [(k, v)]
  | p :: rest, k, v =>
    if p.1 == k then (k, v) :: rest else p :: dictSet rest k v

/-- Python-dict deletion `d.pop(k, None)`. -/
def dictPop {α : Type} (t : List (String × α)) (k : String) :
    List (String × α) :=
  t.filter (fun p => p.1 != k)

/-- A Python dict built from a list of key/value pairs (dict
comprehension semantics: a later duplicate key overwrites an earlier one). -/
def dictOfPairs {α : Type} (ps : List (String × α)) : List (String × α) :=
  ps.foldl (fun t p => dictSet t p.1 p.2) []

/-- The possible contents of the cursor file. -/
inductive FileVal where
  /-- A JSON object, i.e. a flat string-to-string mapping. -/
  | obj (table : List (String × String))
  /-- Valid JSON whose top-level value is not an object. -/
  | nonObj
  /-- Unreadable or not valid JSON (`json.JSONDecodeError` / `OSError`). -/
  | corrupt
deriving DecidableEq, Repr

/-- The cursor file: `none` when the file does not exist. -/
def FS : Type := Option FileVal

instance : DecidableEq FS := by
  unfold FS
  infer_instance

/-- Class `CursorStore`: the in-memory cursor table of `cursor.py`. -/
structure CursorStore where
  table : List (String × String)
deriving DecidableEq, Repr

namespace CursorStore

/-- Methods `CursorStore.__init__` / `_load`: start from an empty table, then read
the file if present; a parse failure or a non-object document leaves the
table empty. -/
def load (fs : FS) : CursorStore :=
  match fs with
  | some (.obj t) => ⟨t⟩
  | some .nonObj => ⟨[]⟩
  | some .corrupt => ⟨[]⟩
  | none => ⟨[]⟩

/-- Method `CursorStore.get`. -/
def get (cs : CursorStore) (key : String) : Option String :=
  dictGet cs.table key

/-- Method `CursorStore._save`: rewrite the whole file; on a write error
(`canWrite = false`) the failure is swallowed and the file is untouched. -/
def _save (t : List (String × String)) (canWrite : Bool) (fs : FS) : FS :=
  if canWrite then some (.obj t) else fs

/-- Method `CursorStore.set`: update the in-memory table, then persist. -/
def set (cs : CursorStore) (key cursor : String) (canWrite : Bool)
    (fs : FS) : CursorStore × FS :=
  let t := dictSet cs.table key cursor
  (⟨t⟩, _save t canWrite fs)

/-- Method `CursorStore.clear`: drop one key (or all), then persist. -/
def clear (cs : CursorStore) (key : Option String) (canWrite : Bool)
    (fs : FS) : CursorStore × FS :=
  let t := match key with
    | some k => dictPop cs.table k
    | none => []
  (⟨t⟩, _save t canWrite fs)

end CursorStore

/-- The `content` field of a raw feed item: absent (`data.get("content", {})`
then gives an empty dict), a plain string, a JSON object with optional
`excerpt_text` / `summary` keys, or some other JSON value. -/
inductive RawContent where
  | missing
  | str (s : String)
  | obj (excerpt_text summary : Option String)
  | other
deriving DecidableEq, Repr

/-- A raw feed item object as it appears in a feed document.  The raw
record may carry a `bucket` key of its own; `FeedItem.from_raw` never
reads it. -/
structure RawItem where
  source : Option String := none
  id : Option String := none
  headline : Option String := none
  url : Option String := none
  content : RawContent := .missing
  published_at : Option String := none
  updated_at : Option String := none
  bucket : Option String := none
  provenance : List (String × String) := []
deriving DecidableEq, Repr

/-- Class `FeedItem`: one parsed item of a DiffDelta feed. -/
structure FeedItem where
  source : String
  id : String
  headline : String
  url : String := ""
  excerpt : String := ""
  published_at : Option String := none
  updated_at : Option String := none
  bucket : String := "new"
  provenance : List (String × String) := []
  raw : RawItem := {}
deriving DecidableEq, Repr

/-- Method `FeedItem.from_raw(data, bucket)`. -/
def FeedItem.from_raw (data : RawItem) (bucket : String) : FeedItem :=
  let excerpt : String :=
    match data.content with
    | .missing => ""
    | .str s => s
    | .obj et su => if (et.getD "") != "" then et.getD "" else su.getD ""
    | .other => ""
  { source := data.source.getD ""
    id := data.id.getD ""
    headline := data.headline.getD ""
    url := data.url.getD ""
    excerpt := excerpt
    published_at := data.published_at
    updated_at := data.updated_at
    bucket := bucket
    provenance := data.provenance
    raw := data }

/-- A raw head document (`head.json`). -/
structure RawHead where
  cursor : Option String := none
  hash : Option String := none
  changed : Option Bool := none
  generated_at : Option String := none
  ttl_sec : Option Int := none
deriving DecidableEq, Repr

/-- Class `Head`: the lightweight head pointer. -/
structure Head where
  cursor : String
  hash : String := ""
  changed : Bool := false
  generated_at : String := ""
  ttl_sec : Int := 900
deriving DecidableEq, Repr

/-- Method `Head.from_raw(data)`. -/
def Head.from_raw (data : RawHead) : Head :=
  { cursor := data.cursor.getD ""
    hash := data.hash.getD ""
    changed := data.changed.getD false
    generated_at := data.generated_at.getD ""
    ttl_sec := data.ttl_sec.getD 900 }

/-- A raw feed document (`latest.json`); `buckets.get("new", [])` and
friends collapse to list fields defaulting to `[]`. -/
structure RawFeed where
  cursor : Option String := none
  prev_cursor : Option String := none
  source_id : Option String := none
  generated_at : Option String := none
  bucketsNew : List RawItem := []
  bucketsUpdated : List RawItem := []
  bucketsRemoved : List RawItem := []
  batch_narrative : Option String := none
deriving DecidableEq, Repr

/-- Class `Feed`: a full parsed feed response. -/
structure Feed where
  cursor : String
  prev_cursor : String := ""
  source_id : String := ""
  generated_at : String := ""
  items : List FeedItem := []
  new : List FeedItem := []
  updated : List FeedItem := []
  removed : List FeedItem := []
  narrative : String := ""
  raw : RawFeed := {}
deriving DecidableEq, Repr

/-- Method `Feed.from_raw(data)`: parse the three bucket arrays, tagging each
item with the bucket name it was read from, and concatenate them in the
fixed order new, updated, removed. -/
def Feed.from_raw (data : RawFeed) : Feed :=
  let new_items := data.bucketsNew.map (fun i => FeedItem.from_raw i "new")
  let updated_items := data.bucketsUpdated.map (fun i => FeedItem.from_raw i "updated")
  let removed_items := data.bucketsRemoved.map (fun i => FeedItem.from_raw i "removed")
  { cursor := data.cursor.getD ""
    prev_cursor := data.prev_cursor.getD ""
    source_id := data.source_id.getD ""
    generated_at := data.generated_at.getD ""
    items := new_items ++ updated_items ++ removed_items
    new := new_items
    updated := updated_items
    removed := removed_items
    narrative := data.batch_narrative.getD ""
    raw := data }

/-- A raw source entry of `sources.json`. -/
structure RawSource where
  source_id : Option String := none
  name : Option String := none
  tags : Option (List String) := none
  description : Option String := none
  homepage : Option String := none
  enabled : Option Bool := none
  status : Option String := none
  head_url : Option String := none
  latest_url : Option String := none
deriving DecidableEq, Repr

/-- Class `SourceInfo`: metadata about an available source. -/
structure SourceInfo where
  source_id : String
  name : String
  tags : List String := []
  description : String := ""
  homepage : String := ""
  enabled : Bool := true
  status : String := "ok"
  head_url : String := ""
  latest_url : String := ""
deriving DecidableEq, Repr

/-- Method `SourceInfo.from_raw(data)`. -/
def SourceInfo.from_raw (data : RawSource) : SourceInfo :=
  { source_id := data.source_id.getD ""
    name := data.name.getD ""
    tags := data.tags.getD []
    description := data.description.getD ""
    homepage := data.homepage.getD ""
    enabled := data.enabled.getD true
    status := data.status.getD "ok"
    head_url := data.head_url.getD ""
    latest_url := data.latest_url.getD "" }

/-- The raw body of `sources.json` (`data.get("sources", [])`). -/
structure RawSources where
  sources : List RawSource := []
deriving DecidableEq, Repr

/-- A failed HTTP fetch (non-2xx status or connection failure), as raised
by `raise_for_status` / the transport. -/
structure FetchError where
  status : Option Nat := none
  message : String := ""
deriving DecidableEq, Repr

/-- The network oracle for one poll: what each fetch would return.
`canWrite` is the filesystem oracle for cursor-file writes. -/
structure Env where
  headResult : Except FetchError RawHead
  feedResult : Except FetchError RawFeed
  sourcesResult : Except FetchError RawSources
  canWrite : Bool := true

/-- The mutable state of a `DiffDelta` client: the optional cursor store
(`None` when persistence is disabled), the cursor file on disk, and the
memoized `source_id -> tags` table (`_source_tags_cache`). -/
structure ClientState where
  cursors : Option CursorStore := some ⟨[]⟩
  fs : FS := none
  sourceTagsCache : Option (List (String × List String)) := none

/-- Python truthiness of an optional string (`None` and `""` are falsy). -/
def truthyStr (s : Option String) : Bool :=
  match s with
  | some v => v != ""
  | none => false

/-- Python truthiness of an optional list (`None` and `[]` are falsy). -/
def truthyList (l : Option (List String)) : Bool :=
  match l with
  | some v => !v.isEmpty
  | none => false

namespace DiffDelta

/-- Method `DiffDelta.sources()`: fetch `sources.json` and parse each entry. -/
def sources (env : Env) : Except FetchError (List SourceInfo) :=
  match env.sourcesResult with
  | .ok raw => .ok (raw.sources.map SourceInfo.from_raw)
  | .error e => .error e

/-- Method `DiffDelta._get_source_tags()`: memoized `source_id -> tags` table;
a failed sources fetch is swallowed and caches the empty table.  Returns
the table, the updated state, and the number of sources fetches made. -/
def _get_source_tags (env : Env) (st : ClientState) :
    List (String × List String) × ClientState × Nat :=
  match st.sourceTagsCache with
  | some m => (m, st, 0)
  | none =>
    let m : List (String × List String) :=
      match sources env with
      | .ok all_sources => dictOfPairs (all_sources.map (fun s => (s.source_id, s.tags)))
      | .error _ => []
    (m, { st with sourceTagsCache := some m }, 1)

/-- Line 151 of `client.py`:
`self._cursors.get(cursor_key) if self._cursors else None`. -/
def storedOf (st : ClientState) (key : String) : Option String :=
  match st.cursors with
  | some cs => cs.get key
  | none => none

/-- Line 153 of `client.py`: the short-circuit test
`stored_cursor and stored_cursor == head.cursor` (Python truthiness:
`None` and `""` are both falsy). -/
def cursorUnchanged (stored : Option String) (headCursor : String) : Bool :=
  truthyStr stored && (stored.getD "" == headCursor)

/-- One pass of the item filter of `_poll_feed` (the body of the
`for item in feed.items` loop).  The accumulator carries the items kept
so far, the client state, and the sources fetch count. -/
def filterStep (env : Env) (tags sourcesFilter : Option (List String))
    (buckets : List String)
    (acc : List FeedItem × ClientState × Nat) (item : FeedItem) :
    List FeedItem × ClientState × Nat :=
  let (kept, st, n) := acc
  if !(buckets.contains item.bucket) then
    (kept, st, n)
  else if truthyList sourcesFilter && !((sourcesFilter.getD []).contains item.source) then
    (kept, st, n)
  else if truthyList tags then
    let (source_tags, st1, k) := _get_source_tags env st
    let item_tags := (dictGet source_tags item.source).getD []
    if !((tags.getD []).any (fun t => item_tags.contains t)) then
      (kept, st1, n + k)
    else
      (kept ++ [item], st1, n + k)
  else
    (kept ++ [item], st, n)

/-- The outcome of a poll: the returned items (or the propagated fetch
error), the final client state, and how many full-feed and sources
fetches were performed. -/
structure PollOutcome where
  result : Except FetchError (List FeedItem)
  state : ClientState
  feedFetches : Nat
  sourcesFetches : Nat

/-- Lines 160-162 of `client.py`: after a successful full fetch, save
the feed's cursor when the store is enabled and the cursor is truthy. -/
def saveCursorState (env : Env) (st : ClientState) (cursor_key : String)
    (feedCursor : String) : ClientState :=
  match st.cursors with
  | some cs =>
    if feedCursor != "" then
      let (cs1, fs1) := cs.set cursor_key feedCursor env.canWrite st.fs
      { st with cursors := some cs1, fs := fs1 }
    else st
  | none => st

/-- Steps 3-5 of `_poll_feed` (lines 157-186 of `client.py`): fetch the
full feed (a failure propagates), save its cursor, filter its items. -/
def _poll_feed_full (env : Env) (st : ClientState) (cursor_key : String)
    (tags sourcesFilter : Option (List String)) (buckets : List String) :
    PollOutcome :=
  match env.feedResult with
  | .error e => ⟨.error e, st, 1, 0⟩
  | .ok rawFeed =>
    let feed := Feed.from_raw rawFeed
    let st1 := saveCursorState env st cursor_key feed.cursor
    let (items, st2, n) :=
      feed.items.foldl (filterStep env tags sourcesFilter buckets) ([], st1, 0)
    ⟨.ok items, st2, 1, n⟩

/-- Method `DiffDelta._poll_feed`: head fetch, cursor comparison, conditional
full fetch, cursor save, item filtering. -/
def _poll_feed (env : Env) (st : ClientState) (cursor_key : String)
    (tags sourcesFilter : Option (List String)) (buckets : List String) :
    PollOutcome :=
  match env.headResult with
  | .error e => ⟨.error e, st, 0, 0⟩
  | .ok rawHead =>
    let head := Head.from_raw rawHead
    let stored_cursor := storedOf st cursor_key
    if cursorUnchanged stored_cursor head.cursor then
      ⟨.ok [], st, 0, 0⟩
    else
      _poll_feed_full env st cursor_key tags sourcesFilter buckets

/-- Method `DiffDelta.poll`: the global feed, cursor key `"global"`, buckets
defaulting to `["new", "updated"]`. -/
def poll (env : Env) (st : ClientState)
    (tags sourcesFilter : Option (List String))
    (buckets : Option (List String)) : PollOutcome :=
  _poll_feed env st "global" tags sourcesFilter (buckets.getD ["new", "updated"])

/-- Method `DiffDelta.poll_source`: a per-source feed, cursor key
`"source:<id>"`, no tag or source filters. -/
def poll_source (env : Env) (st : ClientState) (source_id : String)
    (buckets : Option (List String)) : PollOutcome :=
  _poll_feed env st ("source:" ++ source_id) none none
    (buckets.getD ["new", "updated"])

/-- Method `DiffDelta.head()`: fetch and parse a head pointer.  The method never
touches the cursor store, so the client state is returned unchanged. -/
def head (env : Env) (st : ClientState) :
    (Except FetchError Head) × ClientState :=
  (match env.headResult with
   | .ok rawHead => .ok (Head.from_raw rawHead)
   | .error e => .error e, st)

/-- Method `DiffDelta.fetch_feed()`: fetch and parse a full feed.  The method
never touches the cursor store, so the client state is returned
unchanged. -/
def fetch_feed (env : Env) (st : ClientState) :
    (Except FetchError Feed) × ClientState :=
  (match env.feedResult with
   | .ok rawFeed => .ok (Feed.from_raw rawFeed)
   | .error e => .error e, st)

/-- The `for item in items: callback(item)` loop of `watch`, for a
callback that either returns normally (`true`) or raises (`false`).
Returns the items the callback was invoked on: a raising callback stops
the loop (the exception escapes the `for`), so later items are skipped. -/
def dispatch (callback : FeedItem → Bool) : List FeedItem → List FeedItem
  | [] => []
  | item :: rest =>
    if callback item then item :: dispatch callback rest else [item]

/-- The result of one iteration of the `while True` loop of `watch`. -/
structure WatchIterResult where
  state : ClientState
  invoked : List FeedItem

/-- One iteration of `watch`'s `while True` body: call `poll`; on
success dispatch each item to the callback; any exception — from the
poll or from the callback — is caught by the iteration-level
`except Exception` and swallowed, after which the loop sleeps and
continues. -/
def watch_iter (env : Env) (st : ClientState) (callback : FeedItem → Bool)
    (tags sourcesFilter : Option (List String)) (buckets : List String) :
    WatchIterResult :=
  let out := poll env st tags sourcesFilter (some buckets)
  match out.result with
  | .error _ => ⟨out.state, []⟩
  | .ok items => ⟨out.state, dispatch callback items⟩

/-- A run of `watch` across a schedule of per-iteration network
environments; returns the final state and, per iteration, the items the
callback was invoked on.  The loop itself never terminates on an error,
so every scheduled iteration executes. -/
def watch_run (envs : List Env) (st : ClientState)
    (callback : FeedItem → Bool)
    (tags sourcesFilter : Option (List String)) (buckets : List String) :
    ClientState × List (List FeedItem) :=
  match envs with
  | [] => (st, [])
  | env :: rest =>
    let r := watch_iter env st callback tags sourcesFilter buckets
    let (stFinal, logs) := watch_run rest r.state callback tags sourcesFilter buckets
    (stFinal, r.invoked :: logs)

/-- The `source_id -> tags` table a fresh sources fetch would produce
(the empty table when the fetch fails). -/
def fetchedTags (env : Env) : List (String × List String) :=
  match sources env with
  | .ok all_sources => dictOfPairs (all_sources.map (fun s => (s.source_id, s.tags)))
  | .error _ => []

/-- The `source_id -> tags` table `_get_source_tags` yields in a given
state: the memoized table if present, otherwise a fresh fetch. -/
def resolvedSourceTags (env : Env) (st : ClientState) :
    List (String × List String) :=
  match st.sourceTagsCache with
  | some m => m
  | none => fetchedTags env

/-- The item-keeping predicate of `_poll_feed`'s filter, with Python
truthiness: an absent or empty `sourcesFilter`/`tags` list disables that
filter. -/
def keepItem (M : List (String × List String))
    (tags sourcesFilter : Option (List String)) (buckets : List String)
    (item : FeedItem) : Bool :=
  buckets.contains item.bucket
    && (!(truthyList sourcesFilter) || (sourcesFilter.getD []).contains item.source)
    && (!(truthyList tags)
        || (tags.getD []).any (fun t => ((dictGet M item.source).getD []).contains t))

/-- The item-keeping predicate as the spec words it: keep an item iff its
bucket is in `bucketsFilter`, AND `sourcesFilter` is absent OR the source
is a member of it, AND `tagsFilter` is absent OR the source has one of
its tags.  "Absent" is read strictly as the filter not being given. -/
def keepItemSpec (M : List (String × List String))
    (tags sourcesFilter : Option (List String)) (buckets : List String)
    (item : FeedItem) : Bool :=
  buckets.contains item.bucket
    && (sourcesFilter.isNone || (sourcesFilter.getD []).contains item.source)
    && (tags.isNone
        || (tags.getD []).any (fun t => ((dictGet M item.source).getD []).contains t))

end DiffDelta

section DictLemmas

variable {α : Type}

theorem dictGet_nil {k : String} : dictGet ([] : List (String × α)) k = none := rfl

theorem dictGet_cons {p : String × α} {t : List (String × α)} {k : String} :
    dictGet (p :: t) k = if p.1 == k then some p.2 else dictGet t k := by
  simp only [dictGet, List.find?]
  cases h : p.1 == k <;> simp [h]

/-- After `dictSet t k v`, looking up `k` yields `v`. -/
theorem dictGet_dictSet_self {k : String} {v : α} :
    ∀ t : List (String × α), dictGet (dictSet t k v) k = some v := by
  intro t
  induction t with
  | nil => simp [dictSet, dictGet_cons]
  | cons p rest ih =>
    by_cases hpk : p.1 = k
    · simp [dictSet, hpk, dictGet_cons]
    · simp [dictSet, hpk, dictGet_cons, ih]

/-- Updating via `dictSet t k v` does not change the binding of any other key. -/
theorem dictGet_dictSet_other {k k' : String} {v : α} (hne : k' ≠ k) :
    ∀ t : List (String × α), dictGet (dictSet t k v) k' = dictGet t k' := by
  have hne1 : ¬ (k = k') := fun hc => hne hc.symm
  intro t
  induction t with
  | nil => simp [dictSet, dictGet_cons, dictGet_nil, hne1]
  | cons p rest ih =>
    by_cases hpk : p.1 = k
    · have h2 : ¬ (p.1 = k') := by
        rw [hpk]
        exact hne1
      simp [dictSet, hpk, dictGet_cons, hne1, h2]
    · have hcond : (p.1 == k) = false := by simp [hpk]
      by_cases hq : p.1 = k'
      · simp [dictSet, hcond, dictGet_cons, hq, hne]
      · simp [dictSet, hcond, dictGet_cons, hq, hne, ih]

/-- After removing key `k`, looking up `k` yields nothing. -/
theorem dictGet_dictPop_self {t : List (String × α)} {k : String} :
    dictGet (dictPop t k) k = none := by
  induction t with
  | nil => rfl
  | cons p rest ih =>
    unfold dictPop at ih ⊢
    by_cases hpk : p.1 = k
    · simpa [List.filter_cons, hpk] using ih
    · simpa [List.filter_cons, hpk, dictGet_cons] using ih

end DictLemmas

namespace DiffDelta

theorem cursorUnchanged_iff {stored : Option String} {hc : String} :
    cursorUnchanged stored hc = true
      ↔ ∃ s, stored = some s ∧ s ≠ "" ∧ s = hc := by
  cases stored with
  | none => simp [cursorUnchanged, truthyStr]
  | some s => simp [cursorUnchanged, truthyStr, and_assoc]

theorem _poll_feed_ok {env : Env} {rh : RawHead} (st : ClientState)
    (key : String) (tags srcF : Option (List String)) (buckets : List String)
    (hh : env.headResult = .ok rh) :
    _poll_feed env st key tags srcF buckets
      = if cursorUnchanged (storedOf st key) (Head.from_raw rh).cursor
        then ⟨.ok [], st, 0, 0⟩
        else _poll_feed_full env st key tags srcF buckets := by
  unfold _poll_feed
  rw [hh]

theorem _poll_feed_full_feedFetches (env : Env) (st : ClientState)
    (key : String) (tags srcF : Option (List String)) (buckets : List String) :
    (_poll_feed_full env st key tags srcF buckets).feedFetches = 1 := by
  unfold _poll_feed_full
  cases env.feedResult with
  | error e => rfl
  | ok rawFeed =>
    rcases hfold : (Feed.from_raw rawFeed).items.foldl
        (filterStep env tags srcF buckets)
        ([], saveCursorState env st key (Feed.from_raw rawFeed).cursor, 0)
      with ⟨items, st2, n⟩
    simp [hfold]

theorem saveCursorState_self {env : Env} {st : ClientState}
    {cs : CursorStore} (key : String) {c : String}
    (hcs : st.cursors = some cs) (hc : c ≠ "") :
    storedOf (saveCursorState env st key c) key = some c := by
  unfold saveCursorState
  rw [hcs]
  simp only [bne_iff_ne, ne_eq, hc, not_false_eq_true, if_true]
  simp [storedOf, CursorStore.get, CursorStore.set, dictGet_dictSet_self]

theorem saveCursorState_empty (env : Env) (st : ClientState) (key : String) :
    saveCursorState env st key "" = st := by
  unfold saveCursorState
  cases st.cursors <;> simp

theorem saveCursorState_disabled {env : Env} {st : ClientState}
    (key c : String) (hcs : st.cursors = none) :
    saveCursorState env st key c = st := by
  unfold saveCursorState
  rw [hcs]

theorem saveCursorState_other {env : Env} {st : ClientState}
    {k key : String} (c : String) (hne : k ≠ key) :
    storedOf (saveCursorState env st key c) k = storedOf st k := by
  unfold saveCursorState
  cases hcs : st.cursors with
  | none => rfl
  | some cs =>
    by_cases hc : c != ""
    · simp only [hc, if_true]
      simp [storedOf, CursorStore.get, CursorStore.set, hcs,
        dictGet_dictSet_other hne]
    · have hcf : (c != "") = false := by simpa using hc
      simp [hcf, storedOf]

theorem saveCursorState_cache (env : Env) (st : ClientState)
    (key c : String) :
    (saveCursorState env st key c).sourceTagsCache = st.sourceTagsCache := by
  unfold saveCursorState
  cases st.cursors with
  | none => rfl
  | some cs =>
    by_cases hc : c != ""
    · simp [hc]
    · simp [hc]

theorem _get_source_tags_fst (env : Env) (st : ClientState) :
    (_get_source_tags env st).1 = resolvedSourceTags env st := by
  unfold _get_source_tags resolvedSourceTags fetchedTags
  cases st.sourceTagsCache <;> rfl

theorem _get_source_tags_state (env : Env) (st : ClientState) :
    ((_get_source_tags env st).2.1).cursors = st.cursors
    ∧ ((_get_source_tags env st).2.1).fs = st.fs
    ∧ ((_get_source_tags env st).2.1).sourceTagsCache
        = some (resolvedSourceTags env st) := by
  unfold _get_source_tags resolvedSourceTags fetchedTags
  cases hc : st.sourceTagsCache <;> simp [hc]

theorem filterStep_fst (env : Env) (tags srcF : Option (List String))
    (buckets : List String) (M : List (String × List String))
    (kept : List FeedItem) (st : ClientState) (n : Nat) (item : FeedItem)
    (hM : resolvedSourceTags env st = M) :
    (filterStep env tags srcF buckets (kept, st, n) item).1
      = if keepItem M tags srcF buckets item then kept ++ [item]
        else kept := by
  have hDM : ∀ a b : Bool, (!a || b) = !(a && !b) := by decide
  have hg1 : (_get_source_tags env st).1 = M := by
    rw [_get_source_tags_fst, hM]
  unfold filterStep keepItem
  rw [hDM (truthyList srcF) ((srcF.getD []).contains item.source)]
  cases hb : buckets.contains item.bucket with
  | false => simp [hb]
  | true =>
    cases hs : (truthyList srcF && !((srcF.getD []).contains item.source)) with
    | true => simp [hb, hs]
    | false =>
      cases ht : truthyList tags with
      | false => simp [hb, hs, ht]
      | true =>
        simp only [hb, hs, ht, Bool.not_true, Bool.not_false,
          Bool.false_eq_true, if_false, if_true, Bool.true_and, hg1]
        cases hmatch : ((tags.getD []).any
            (fun t => ((dictGet M item.source).getD []).contains t)) with
        | false => simp [hmatch]
        | true => simp [hmatch]

theorem filterStep_state (env : Env) (tags srcF : Option (List String))
    (buckets : List String) (kept : List FeedItem) (st : ClientState)
    (n : Nat) (item : FeedItem) :
    ((filterStep env tags srcF buckets (kept, st, n) item).2.1).cursors
        = st.cursors
    ∧ ((filterStep env tags srcF buckets (kept, st, n) item).2.1).fs = st.fs
    ∧ resolvedSourceTags env
        ((filterStep env tags srcF buckets (kept, st, n) item).2.1)
        = resolvedSourceTags env st := by
  obtain ⟨hg1, hg2, hg3⟩ := _get_source_tags_state env st
  have hres : resolvedSourceTags env ((_get_source_tags env st).2.1)
      = resolvedSourceTags env st := by
    unfold resolvedSourceTags
    rw [hg3]
    rfl
  unfold filterStep
  cases hb : buckets.contains item.bucket with
  | false => simp [hb]
  | true =>
    cases hs : (truthyList srcF && !((srcF.getD []).contains item.source)) with
    | true => simp [hb, hs]
    | false =>
      cases ht : truthyList tags with
      | false => simp [hb, hs, ht]
      | true =>
        simp only [hb, hs, ht, Bool.not_true, Bool.not_false,
          Bool.false_eq_true, if_false, if_true]
        cases hmatch : ((tags.getD []).any (fun t =>
            ((dictGet (_get_source_tags env st).1 item.source).getD []).contains t)) with
        | false => simp [hmatch, hg1, hg2, hres]
        | true => simp [hmatch, hg1, hg2, hres]

/-- The item loop of `_poll_feed` computes a stable filter by the
`keepItem` predicate over the resolved `source_id -> tags` table, and
never touches the cursor store or the cursor file. -/
theorem foldl_filterStep (env : Env) (tags srcF : Option (List String))
    (buckets : List String) (M : List (String × List String)) :
    ∀ (items : List FeedItem) (kept : List FeedItem) (st : ClientState)
      (n : Nat), resolvedSourceTags env st = M →
      (items.foldl (filterStep env tags srcF buckets) (kept, st, n)).1
          = kept ++ items.filter (keepItem M tags srcF buckets)
      ∧ ((items.foldl (filterStep env tags srcF buckets) (kept, st, n)).2.1).cursors
          = st.cursors
      ∧ ((items.foldl (filterStep env tags srcF buckets) (kept, st, n)).2.1).fs
          = st.fs := by
  intro items
  induction items with
  | nil =>
    intro kept st n hM
    simp
  | cons item rest ih =>
    intro kept st n hM
    rw [List.foldl_cons, List.filter_cons]
    rcases hstep : filterStep env tags srcF buckets (kept, st, n) item
      with ⟨kept1, st1, n1⟩
    have hfst := filterStep_fst env tags srcF buckets M kept st n item hM
    rw [hstep] at hfst
    obtain ⟨hq1, hq2, hq3⟩ := filterStep_state env tags srcF buckets kept st n item
    rw [hstep] at hq1 hq2 hq3
    have hfst1 : kept1
        = if keepItem M tags srcF buckets item = true then kept ++ [item]
          else kept := hfst
    have hq1a : st1.cursors = st.cursors := hq1
    have hq2a : st1.fs = st.fs := hq2
    have hq3a : resolvedSourceTags env st1 = resolvedSourceTags env st := hq3
    have hM1 : resolvedSourceTags env st1 = M := by
      rw [hq3a, hM]
    obtain ⟨h1, h2, h3⟩ := ih kept1 st1 n1 hM1
    refine ⟨?_, by rw [h2, hq1a], by rw [h3, hq2a]⟩
    rw [h1, hfst1]
    by_cases hk : keepItem M tags srcF buckets item = true
    · simp [hk, List.append_assoc]
    · simp [hk]

theorem _poll_feed_err {env : Env} {e : FetchError} (st : ClientState)
    (key : String) (tags srcF : Option (List String))
    (buckets : List String) (hh : env.headResult = .error e) :
    _poll_feed env st key tags srcF buckets = ⟨.error e, st, 0, 0⟩ := by
  unfold _poll_feed
  rw [hh]

theorem _poll_feed_full_err {env : Env} {e : FetchError} (st : ClientState)
    (key : String) (tags srcF : Option (List String))
    (buckets : List String) (hf : env.feedResult = .error e) :
    _poll_feed_full env st key tags srcF buckets = ⟨.error e, st, 1, 0⟩ := by
  unfold _poll_feed_full
  rw [hf]

theorem _poll_feed_full_ok_eq {env : Env} {rf : RawFeed} (st : ClientState)
    (key : String) (tags srcF : Option (List String))
    (buckets : List String) (hf : env.feedResult = .ok rf) :
    _poll_feed_full env st key tags srcF buckets
      = ⟨.ok ((Feed.from_raw rf).items.foldl (filterStep env tags srcF buckets)
              ([], saveCursorState env st key (Feed.from_raw rf).cursor, 0)).1,
         ((Feed.from_raw rf).items.foldl (filterStep env tags srcF buckets)
              ([], saveCursorState env st key (Feed.from_raw rf).cursor, 0)).2.1,
         1,
         ((Feed.from_raw rf).items.foldl (filterStep env tags srcF buckets)
              ([], saveCursorState env st key (Feed.from_raw rf).cursor, 0)).2.2⟩ := by
  unfold _poll_feed_full
  rw [hf]

/-- Reading `storedOf` only looks at the cursor-store component of the state. -/
theorem storedOf_congr {st st' : ClientState} (k : String)
    (h : st.cursors = st'.cursors) : storedOf st k = storedOf st' k := by
  unfold storedOf
  rw [h]

/-- A successful full fetch returns the stable `keepItem` filter of the
feed's items, and its final cursor store is the one `saveCursorState`
left behind. -/
theorem _poll_feed_full_result {env : Env} {rf : RawFeed} (st : ClientState)
    (key : String) (tags srcF : Option (List String))
    (buckets : List String) (hf : env.feedResult = .ok rf) :
    (_poll_feed_full env st key tags srcF buckets).result
        = .ok ((Feed.from_raw rf).items.filter
            (keepItem (resolvedSourceTags env st) tags srcF buckets))
    ∧ ((_poll_feed_full env st key tags srcF buckets).state).cursors
        = (saveCursorState env st key (Feed.from_raw rf).cursor).cursors := by
  rw [_poll_feed_full_ok_eq st key tags srcF buckets hf]
  have hres1 : resolvedSourceTags env
      (saveCursorState env st key (Feed.from_raw rf).cursor)
      = resolvedSourceTags env st := by
    unfold resolvedSourceTags
    rw [saveCursorState_cache]
  obtain ⟨h1, h2, h3⟩ := foldl_filterStep env tags srcF buckets
    (resolvedSourceTags env st) (Feed.from_raw rf).items []
    (saveCursorState env st key (Feed.from_raw rf).cursor) 0 hres1
  constructor
  · rw [show (⟨.ok ((Feed.from_raw rf).items.foldl (filterStep env tags srcF buckets)
          ([], saveCursorState env st key (Feed.from_raw rf).cursor, 0)).1, _, 1, _⟩
        : PollOutcome).result
      = .ok ((Feed.from_raw rf).items.foldl (filterStep env tags srcF buckets)
          ([], saveCursorState env st key (Feed.from_raw rf).cursor, 0)).1 from rfl]
    rw [h1]
    simp
  · exact h2

/-- Dispatching invokes the callback on the longest prefix running up to
and including the first item the callback raises on. -/
theorem dispatch_take (cb : FeedItem → Bool) :
    ∀ l : List FeedItem,
      dispatch cb l = l.take (l.findIdx (fun i => !(cb i)) + 1) := by
  intro l
  induction l with
  | nil => rfl
  | cons i rest ih =>
    by_cases hc : cb i
    · simp [dispatch, hc, List.findIdx_cons, ih]
    · simp [dispatch, hc, List.findIdx_cons]

theorem watch_run_cons (env : Env) (envs : List Env) (st : ClientState)
    (cb : FeedItem → Bool) (tags srcF : Option (List String))
    (buckets : List String) :
    watch_run (env :: envs) st cb tags srcF buckets
      = ((watch_run envs (watch_iter env st cb tags srcF buckets).state
            cb tags srcF buckets).1,
         (watch_iter env st cb tags srcF buckets).invoked
           :: (watch_run envs (watch_iter env st cb tags srcF buckets).state
                cb tags srcF buckets).2) := rfl

/-- Every scheduled iteration of the watch loop runs: no poll failure or
callback failure terminates the loop. -/
theorem watch_run_length (cb : FeedItem → Bool)
    (tags srcF : Option (List String)) (buckets : List String) :
    ∀ (envs : List Env) (st : ClientState),
      ((watch_run envs st cb tags srcF buckets).2).length = envs.length := by
  intro envs
  induction envs with
  | nil => intro st; rfl
  | cons env rest ih =>
    intro st
    rw [watch_run_cons]
    simp [ih]

end DiffDelta

open DiffDelta

/-! ## Concrete fixtures used by witnesses and counterexamples -/

def itemA : RawItem := { source := some "src1", id := some "1", headline := some "A" }

def itemB : RawItem := { source := some "src2", id := some "2", headline := some "B" }

/-- A feed carrying cursor `"c2"` and two new items. -/
def feedW : RawFeed := { cursor := some "c2", bucketsNew := [itemA, itemB] }

/-- A head carrying cursor `"c2"`. -/
def headW : RawHead := { cursor := some "c2" }

/-- A head whose `cursor` key is missing (parses to cursor `""`). -/
def headE : RawHead := {}

/-- Network oracle: head `"c2"`, feed `feedW`, sources fetch failing. -/
def envW : Env :=
  { headResult := .ok headW, feedResult := .ok feedW,
    sourcesResult := .error {} }

/-- Network oracle with an empty head cursor. -/
def envE : Env :=
  { headResult := .ok headE, feedResult := .ok feedW,
    sourcesResult := .error {} }

/-- Client state with stored cursor `"c1"` for `"global"`. -/
def stW : ClientState := { cursors := some ⟨[("global", "c1")]⟩ }

/-- Client state with stored cursor `"c2"` for `"global"` (matches
`headW`). -/
def stMatch : ClientState := { cursors := some ⟨[("global", "c2")]⟩ }

/-- Client state with the empty string stored for `"global"`. -/
def stEmptyCursor : ClientState := { cursors := some ⟨[("global", "")]⟩ }

/-! ## Claim theorems -/

/-- C6: for every raw feed document, `Feed.from_raw` produces `items`
equal to the concatenation of the three bucket sub-sequences in the
fixed order new, updated, removed (preserving each sub-sequence's
document order via `map`), and every parsed item's `bucket` field equals
the feed section name it was read from — for every raw record, whatever
`bucket` key the record itself carries. -/
theorem C6_feed_from_raw_buckets (d : RawFeed) :
    (Feed.from_raw d).items
      = d.bucketsNew.map (fun i => FeedItem.from_raw i "new")
        ++ d.bucketsUpdated.map (fun i => FeedItem.from_raw i "updated")
        ++ d.bucketsRemoved.map (fun i => FeedItem.from_raw i "removed")
    ∧ (∀ (r : RawItem) (b : String), (FeedItem.from_raw r b).bucket = b) :=
  ⟨rfl, fun _ _ => rfl⟩

/-- C7: constructing a `CursorStore` over a missing file, or over a
present file that is not a parseable JSON object (corrupt, or valid JSON
of the wrong shape), yields an empty in-memory table; a subsequent
`set` succeeds and writes a valid object file over the corrupt one. -/
theorem C7_cursorstore_recovery (fs : FS) (k c : String)
    (h : fs = none ∨ fs = some .corrupt ∨ fs = some .nonObj) :
    (CursorStore.load fs).table = []
    ∧ ((CursorStore.load fs).set k c true fs).1.get k = some c
    ∧ ((CursorStore.load fs).set k c true fs).2 = some (.obj [(k, c)]) := by
  have hload : CursorStore.load fs = ⟨[]⟩ := by
    rcases h with h | h | h <;> rw [h] <;> rfl
  rw [hload]
  refine ⟨rfl, ?_, rfl⟩
  show dictGet (dictSet [] k c) k = some c
  exact dictGet_dictSet_self []

/-- Witness for C7 at the corrupt-file input. -/
theorem C7_cursorstore_recovery_witness :
    (CursorStore.load (some .corrupt)).table = []
    ∧ ((CursorStore.load (some .corrupt)).set "global" "abc123" true
        (some .corrupt)).1.get "global" = some "abc123"
    ∧ ((CursorStore.load (some .corrupt)).set "global" "abc123" true
        (some .corrupt)).2 = some (.obj [("global", "abc123")]) :=
  C7_cursorstore_recovery (some .corrupt) "global" "abc123"
    (Or.inr (Or.inl rfl))

/-- C8: a `set` or `clear` whose file write fails still updates the
in-memory table — `get` observes the new value — and returns normally,
leaving the file untouched (degraded, non-durable mode). -/
theorem C8_cursorstore_degraded_write (cs : CursorStore) (k c k1 : String)
    (fs : FS) :
    ((cs.set k c false fs).1).get k = some c
    ∧ (cs.set k c false fs).2 = fs
    ∧ ((cs.clear (some k1) false fs).1).get k1 = none
    ∧ (cs.clear (some k1) false fs).2 = fs
    ∧ ((cs.clear none false fs).1).table = []
    ∧ (cs.clear none false fs).2 = fs := by
  refine ⟨?_, rfl, ?_, rfl, rfl, rfl⟩
  · show dictGet (dictSet cs.table k c) k = some c
    exact dictGet_dictSet_self cs.table
  · show dictGet (dictPop cs.table k1) k1 = none
    exact dictGet_dictPop_self

/-- C9: round-trip — after `set key cursor` persists successfully, a
fresh `CursorStore` loaded from the same file returns exactly that
cursor for the key. -/
theorem C9_cursorstore_roundtrip (cs : CursorStore) (k c : String)
    (fs : FS) :
    (CursorStore.load ((cs.set k c true fs).2)).get k = some c := by
  show dictGet (dictSet cs.table k c) k = some c
  exact dictGet_dictSet_self cs.table

/-- C10: a stored empty-string cursor is falsy, so `_poll_feed` treats
it as absent and always performs the full-feed fetch — for every fetched
head, including one whose cursor is also the empty string. -/
theorem C10_empty_stored_cursor_full_fetch (env : Env) (st : ClientState)
    (key : String) (tags srcF : Option (List String))
    (buckets : List String) (rh : RawHead)
    (hh : env.headResult = .ok rh)
    (hstored : storedOf st key = some "") :
    (_poll_feed env st key tags srcF buckets).feedFetches = 1 := by
  rw [_poll_feed_ok st key tags srcF buckets hh]
  have hcu : cursorUnchanged (storedOf st key) (Head.from_raw rh).cursor
      = false := by
    rw [hstored]
    rfl
  rw [if_neg (by simp [hcu])]
  exact _poll_feed_full_feedFetches env st key tags srcF buckets

/-- Witness for C10: stored cursor `""`, head cursor also `""` (exactly
equal), and the full feed is still fetched. -/
theorem C10_witness :
    (Head.from_raw headE).cursor = ""
    ∧ storedOf stEmptyCursor "global" = some ""
    ∧ (_poll_feed envE stEmptyCursor "global" none none
        ["new", "updated"]).feedFetches = 1 :=
  ⟨rfl, rfl,
    C10_empty_stored_cursor_full_fetch envE stEmptyCursor "global" none none
      ["new", "updated"] headE rfl rfl⟩

/-- C1: with a successfully fetched head, `_poll_feed` skips the
full-feed fetch exactly when a stored cursor for the key is present,
non-empty (per C10, an empty stored cursor counts as absent), and equal
to the head's cursor; in the skip case it returns the empty list, makes
no further network call and leaves the client state untouched; with no
stored cursor for the key, or with the cursor store disabled, it always
performs the full-feed fetch. -/
theorem C1_pollFeed_skip_iff (env : Env) (st : ClientState) (key : String)
    (tags srcF : Option (List String)) (buckets : List String)
    (rh : RawHead) (hh : env.headResult = .ok rh) :
    ((_poll_feed env st key tags srcF buckets).feedFetches = 0
      ↔ ∃ s, storedOf st key = some s ∧ s ≠ ""
          ∧ s = (Head.from_raw rh).cursor)
    ∧ ((_poll_feed env st key tags srcF buckets).feedFetches = 0
        → _poll_feed env st key tags srcF buckets = ⟨.ok [], st, 0, 0⟩)
    ∧ (storedOf st key = none
        → (_poll_feed env st key tags srcF buckets).feedFetches = 1)
    ∧ (st.cursors = none
        → (_poll_feed env st key tags srcF buckets).feedFetches = 1) := by
  rw [_poll_feed_ok st key tags srcF buckets hh]
  by_cases hcu : cursorUnchanged (storedOf st key) (Head.from_raw rh).cursor
      = true
  · rw [if_pos hcu]
    refine ⟨iff_of_true rfl (cursorUnchanged_iff.mp hcu), fun _ => rfl,
      ?_, ?_⟩
    · intro hnone
      rw [hnone] at hcu
      exact absurd hcu (by simp [cursorUnchanged, truthyStr])
    · intro hdis
      have hnone : storedOf st key = none := by
        unfold storedOf
        rw [hdis]
      rw [hnone] at hcu
      exact absurd hcu (by simp [cursorUnchanged, truthyStr])
  · rw [if_neg hcu]
    have hff := _poll_feed_full_feedFetches env st key tags srcF buckets
    refine ⟨iff_of_false (by simp [hff])
        (fun hex => hcu (cursorUnchanged_iff.mpr hex)),
      fun h0 => absurd h0 (by simp [hff]), fun _ => hff, fun _ => hff⟩

/-- Witness for C1 at a concrete matching cursor: stored `"c2"` equals
the head cursor `"c2"`, so the poll short-circuits. -/
theorem C1_witness :
    (((_poll_feed envW stMatch "global" none none
          ["new", "updated"]).feedFetches = 0
      ↔ ∃ s, storedOf stMatch "global" = some s ∧ s ≠ ""
          ∧ s = (Head.from_raw headW).cursor)
    ∧ ((_poll_feed envW stMatch "global" none none
          ["new", "updated"]).feedFetches = 0
        → _poll_feed envW stMatch "global" none none ["new", "updated"]
            = ⟨.ok [], stMatch, 0, 0⟩)
    ∧ (storedOf stMatch "global" = none
        → (_poll_feed envW stMatch "global" none none
            ["new", "updated"]).feedFetches = 1)
    ∧ (stMatch.cursors = none
        → (_poll_feed envW stMatch "global" none none
            ["new", "updated"]).feedFetches = 1)) :=
  C1_pollFeed_skip_iff envW stMatch "global" none none ["new", "updated"]
    headW rfl

/-- C2: once the full feed has been fetched (head ok, no short-circuit,
feed ok) and the store is enabled, a non-empty feed cursor is stored
under the key — overwriting any prior value, for all filter arguments —
while an empty feed cursor leaves the stored cursor unchanged. -/
theorem C2_cursor_saved_after_full_fetch (env : Env) (st : ClientState)
    (key : String) (tags srcF : Option (List String))
    (buckets : List String) (cs : CursorStore) (rh : RawHead)
    (rf : RawFeed)
    (hcs : st.cursors = some cs)
    (hh : env.headResult = .ok rh)
    (hnoskip : cursorUnchanged (storedOf st key) (Head.from_raw rh).cursor
        = false)
    (hf : env.feedResult = .ok rf) :
    ((Feed.from_raw rf).cursor ≠ ""
      → storedOf (_poll_feed env st key tags srcF buckets).state key
          = some (Feed.from_raw rf).cursor)
    ∧ ((Feed.from_raw rf).cursor = ""
      → storedOf (_poll_feed env st key tags srcF buckets).state key
          = storedOf st key) := by
  rw [_poll_feed_ok st key tags srcF buckets hh, if_neg (by simp [hnoskip])]
  obtain ⟨hres, hcur⟩ := _poll_feed_full_result st key tags srcF buckets hf
  have hstored := storedOf_congr key hcur
  constructor
  · intro hne
    rw [hstored]
    exact saveCursorState_self key hcs hne
  · intro hemp
    rw [hstored, hemp, saveCursorState_empty]

/-- Witness for C2: a poll against `envW` from stored cursor `"c1"`
ends with the feed's cursor `"c2"` stored under `"global"`. -/
theorem C2_witness :
    storedOf (_poll_feed envW stW "global" none none
        ["new", "updated"]).state "global" = some "c2" :=
  (C2_cursor_saved_after_full_fetch envW stW "global" none none
      ["new", "updated"] ⟨[("global", "c1")]⟩ headW feedW rfl rfl rfl
      rfl).1 (by decide)

/-- After `_poll_feed`, every key's stored cursor is either untouched,
or it is the polled key and holds the non-empty cursor of the
successfully fetched feed. -/
theorem pollFeed_cursor_invariant_aux (env : Env) (st : ClientState)
    (key : String) (tags srcF : Option (List String))
    (buckets : List String) (k : String) :
    storedOf (_poll_feed env st key tags srcF buckets).state k
        = storedOf st k
    ∨ (k = key ∧ ∃ rf, env.feedResult = .ok rf
        ∧ (Feed.from_raw rf).cursor ≠ ""
        ∧ storedOf (_poll_feed env st key tags srcF buckets).state k
            = some (Feed.from_raw rf).cursor) := by
  cases hh : env.headResult with
  | error e =>
    left
    rw [_poll_feed_err st key tags srcF buckets hh]
  | ok rh =>
    rw [_poll_feed_ok st key tags srcF buckets hh]
    by_cases hcu : cursorUnchanged (storedOf st key)
        (Head.from_raw rh).cursor = true
    · rw [if_pos hcu]
      left
      rfl
    · rw [if_neg hcu]
      cases hf : env.feedResult with
      | error e =>
        left
        rw [_poll_feed_full_err st key tags srcF buckets hf]
      | ok rf =>
        obtain ⟨hres, hcur⟩ := _poll_feed_full_result st key tags srcF
          buckets hf
        have hstored := storedOf_congr k hcur
        by_cases hk : k = key
        · subst hk
          by_cases hc : (Feed.from_raw rf).cursor = ""
          · left
            rw [hstored, hc, saveCursorState_empty]
          · cases hcs : st.cursors with
            | none =>
              left
              rw [hstored,
                saveCursorState_disabled k (Feed.from_raw rf).cursor hcs]
            | some cs =>
              right
              refine ⟨rfl, rf, rfl, hc, ?_⟩
              rw [hstored]
              exact saveCursorState_self k hcs hc
        · left
          rw [hstored, saveCursorState_other (Feed.from_raw rf).cursor hk]

/-- C4: invariant of the cursor table — a poll only ever advances the
stored cursor of its own feed key, and only to the non-empty cursor of
a feed successfully fetched for that key; a short-circuited poll (the
head-only fetch path) leaves the whole client state untouched; the
stand-alone `head` and `fetch_feed` operations never modify the state;
and one `watch` iteration obeys the same cursor invariant with its
feed key `"global"`. -/
theorem C4_cursor_table_invariant (env : Env) (st : ClientState)
    (key : String) (tags srcF : Option (List String))
    (buckets : List String) (k : String) :
    (storedOf (_poll_feed env st key tags srcF buckets).state k
        = storedOf st k
      ∨ (k = key ∧ ∃ rf, env.feedResult = .ok rf
          ∧ (Feed.from_raw rf).cursor ≠ ""
          ∧ storedOf (_poll_feed env st key tags srcF buckets).state k
              = some (Feed.from_raw rf).cursor))
    ∧ ((_poll_feed env st key tags srcF buckets).feedFetches = 0
        → (_poll_feed env st key tags srcF buckets).state = st)
    ∧ (DiffDelta.head env st).2 = st
    ∧ (fetch_feed env st).2 = st
    ∧ (∀ cb, storedOf (watch_iter env st cb tags srcF buckets).state k
          = storedOf st k
        ∨ (k = "global" ∧ ∃ rf, env.feedResult = .ok rf
            ∧ (Feed.from_raw rf).cursor ≠ ""
            ∧ storedOf (watch_iter env st cb tags srcF buckets).state k
                = some (Feed.from_raw rf).cursor)) := by
  refine ⟨pollFeed_cursor_invariant_aux env st key tags srcF buckets k,
    ?_, rfl, rfl, ?_⟩
  · cases hh : env.headResult with
    | error e =>
      rw [_poll_feed_err st key tags srcF buckets hh]
      intro _
      rfl
    | ok rh =>
      rw [_poll_feed_ok st key tags srcF buckets hh]
      by_cases hcu : cursorUnchanged (storedOf st key)
          (Head.from_raw rh).cursor = true
      · rw [if_pos hcu]
        intro _
        rfl
      · rw [if_neg hcu]
        intro h0
        exact absurd h0
          (by simp [_poll_feed_full_feedFetches env st key tags srcF buckets])
  · intro cb
    have hstate : (watch_iter env st cb tags srcF buckets).state
        = (_poll_feed env st "global" tags srcF
            ((some buckets).getD ["new", "updated"])).state := by
      simp only [watch_iter, poll]
      cases hres : (_poll_feed env st "global" tags srcF
          ((some buckets).getD ["new", "updated"])).result <;> rfl
    rw [hstate]
    exact pollFeed_cursor_invariant_aux env st "global" tags srcF
      ((some buckets).getD ["new", "updated"]) k

/-- Witness for C4 at the short-circuiting fixture: the skipped poll
leaves the state (hence every stored cursor) untouched. -/
theorem C4_witness :
    (_poll_feed envW stMatch "global" none none
        ["new", "updated"]).state = stMatch :=
  (C4_cursor_table_invariant envW stMatch "global" none none
      ["new", "updated"] "global").2.1 rfl

/-- C5 counterexample: with the present-but-empty filter `sources=[]`,
the code keeps every item (Python truthiness disables the filter), while
the claim as stated — "`sourcesFilter` is absent OR the item's `source`
is a member of it" — would exclude them all, the filter being present
and membership in the empty list false. -/
theorem C5_counterexample :
    (_poll_feed envW stW "global" none (some []) ["new"]).result
      = .ok [FeedItem.from_raw itemA "new", FeedItem.from_raw itemB "new"]
    ∧ (Feed.from_raw feedW).items.filter
        (keepItemSpec (resolvedSourceTags envW stW) none (some [])
          ["new"]) = []
    ∧ (some ([] : List String)).isNone = false
    ∧ ¬ ((FeedItem.from_raw itemA "new").source ∈ ([] : List String)) :=
  ⟨rfl, rfl, rfl, by simp⟩

/-- C5 (amended): once the full feed has been fetched, the result is
exactly the stable, order-preserving filter of the feed's items keeping
an item iff its bucket is in `bucketsFilter`, AND `sourcesFilter` is
absent *or empty* or contains the item's source, AND `tagsFilter` is
absent *or empty* or the item's source maps, via the memoized
`source_id -> tags` table, to at least one tag of the filter; a failed
sources fetch gives the empty table, so every source has no tags and an
active tag filter excludes everything. -/
theorem C5_poll_filter (env : Env) (st : ClientState) (key : String)
    (tags srcF : Option (List String)) (buckets : List String)
    (rh : RawHead) (rf : RawFeed)
    (hh : env.headResult = .ok rh)
    (hnoskip : cursorUnchanged (storedOf st key) (Head.from_raw rh).cursor
        = false)
    (hf : env.feedResult = .ok rf) :
    (_poll_feed env st key tags srcF buckets).result
      = .ok ((Feed.from_raw rf).items.filter
          (keepItem (resolvedSourceTags env st) tags srcF buckets))
    ∧ (∀ e, env.sourcesResult = .error e → st.sourceTagsCache = none
        → resolvedSourceTags env st = []) := by
  constructor
  · rw [_poll_feed_ok st key tags srcF buckets hh,
      if_neg (by simp [hnoskip])]
    exact (_poll_feed_full_result st key tags srcF buckets hf).1
  · intro e he hcache
    unfold resolvedSourceTags fetchedTags DiffDelta.sources
    rw [hcache, he]

/-- Witness for C5 at the `sources=[]` fixture (the sources fetch also
fails there, so the resolved tag table is empty). -/
theorem C5_witness :
    ((_poll_feed envW stW "global" none (some []) ["new"]).result
      = .ok ((Feed.from_raw feedW).items.filter
          (keepItem (resolvedSourceTags envW stW) none (some []) ["new"])))
    ∧ resolvedSourceTags envW stW = [] := by
  have h := C5_poll_filter envW stW "global" none (some []) ["new"]
    headW feedW rfl rfl rfl
  exact ⟨h.1, h.2 {} rfl rfl⟩

/-- The callback of the C3 counterexample: raises on the item with id
`"1"`, returns normally otherwise. -/
def cbFail1 : FeedItem → Bool := fun i => i.id != "1"

/-- C3 counterexample: the poll yields a 2-item batch; the callback
raises on item 1; the `for` loop's exception escapes to the
iteration-level `except`, so the callback is never invoked on item 2 —
contradicting the claim that a raising handler "does not prevent the
handler from being invoked for the subsequent items of the same
batch". -/
theorem C3_counterexample :
    (poll envW stW none none (some ["new", "updated"])).result
      = .ok [FeedItem.from_raw itemA "new", FeedItem.from_raw itemB "new"]
    ∧ cbFail1 (FeedItem.from_raw itemA "new") = false
    ∧ (watch_iter envW stW cbFail1 none none ["new", "updated"]).invoked
        = [FeedItem.from_raw itemA "new"]
    ∧ ¬ (FeedItem.from_raw itemB "new"
          ∈ (watch_iter envW stW cbFail1 none none
              ["new", "updated"]).invoked) :=
  ⟨rfl, rfl, rfl, by decide⟩

/-- C3 (amended): the watch loop itself never dies — every scheduled
iteration runs, whether the poll failed or a callback raised — and
within one iteration whose poll succeeded, the callback is invoked on
the batch's items in order exactly up to and including the first item
it raises on; the remaining items of that batch are skipped.  An
iteration whose poll raised dispatches nothing and the loop
continues. -/
theorem C3_watch_isolation (envs : List Env) (st : ClientState)
    (cb : FeedItem → Bool) (tags srcF : Option (List String))
    (buckets : List String) :
    ((watch_run envs st cb tags srcF buckets).2).length = envs.length
    ∧ (∀ env st1 items,
        (poll env st1 tags srcF (some buckets)).result = .ok items
        → (watch_iter env st1 cb tags srcF buckets).invoked
            = items.take (items.findIdx (fun i => !(cb i)) + 1))
    ∧ (∀ env st1 e,
        (poll env st1 tags srcF (some buckets)).result = .error e
        → (watch_iter env st1 cb tags srcF buckets).invoked = []) := by
  refine ⟨watch_run_length cb tags srcF buckets envs st, ?_, ?_⟩
  · intro env st1 items hpoll
    simp only [watch_iter]
    rw [hpoll]
    exact dispatch_take cb items
  · intro env st1 e hpoll
    simp only [watch_iter]
    rw [hpoll]

/-- Witness for C3 (amended): a one-iteration run over `envW` with the
raising callback — the loop log has one entry and the invoked prefix
stops at item 1. -/
theorem C3_watch_isolation_witness :
    ((watch_run [envW] stW cbFail1 none none
        ["new", "updated"]).2).length = 1
    ∧ (watch_iter envW stW cbFail1 none none ["new", "updated"]).invoked
        = [FeedItem.from_raw itemA "new"] := by
  have h := C3_watch_isolation [envW] stW cbFail1 none none
    ["new", "updated"]
  refine ⟨h.1, ?_⟩
  have h2 := h.2.1 envW stW
    [FeedItem.from_raw itemA "new", FeedItem.from_raw itemB "new"] rfl
  rw [h2]
  rfl
